import Mathlib

/-!
Shallow embedding of the ant-pheromone simulation engine (src/main.js).

Conventions used throughout:
* JS numbers are modelled as exact rationals (`ℚ`) and integers (`ℤ`/`ℕ`).
* Angles are represented by their coefficient of π: the JS radian value
  `θ` is modelled by `θ / π : ℚ`.  Every angle constant of the source is a
  rational multiple of π (`ANT_TURN_ANGLE = (π/180)*18`,
  `SENSOR_ANGLE = (π/180)*28`, reflections by `π - θ`, `-θ`, `θ + π/2`),
  and the map `q ↦ q·π` is an order-preserving linear bijection, so all
  comparisons, clamps and the `wrapAngle` wrapping loop transfer faithfully
  to the coefficient representation ([-π, π] becomes [-1, 1], adding 2π
  becomes adding 2).  Random draws (`Math.random() ∈ [0,1)`) and the
  transcendental quantities computed by `Math.atan2`/`cos`/`sin` (the
  bearing toward the nest, a candidate next position) are passed in as
  explicit rational parameters.
* `distanceCells` (a Euclidean `Math.hypot`) only ever appears compared
  against a non-negative constant `r`; `hypot(dx,dy) ≤ r ↔ dx²+dy² ≤ r²`,
  so distances are embedded by their squares (`distanceCellsSq`).
* The `Float32Array` scent fields are modelled as total functions
  `ℕ → ℕ → ℚ`; the simulation only ever reads/writes in-grid cells.
-/

/-- `clamp(value, min, max) = Math.max(min, Math.min(max, value))`
(src/main.js lines 48-50). -/
def clamp {α : Type} [LinearOrder α] (value lo hi : α) : α :=
  max lo (min hi value)

/-- First loop of `wrapAngle` (src/main.js line 57), in π-coefficient units:
`while (angle < -π) angle += 2π`. -/
def wrapUp (angle : ℚ) : ℚ :=
  if h : angle < -1 then wrapUp (angle + 2) else angle
termination_by (⌈(-1 - angle) / 2⌉).toNat
decreasing_by
  have h1 : (0 : ℚ) < (-1 - angle) / 2 := by linarith
  have h2 : 1 ≤ ⌈((-1 : ℚ) - angle) / 2⌉ := Int.ceil_pos.mpr h1
  have h3 : ((-1 : ℚ) - (angle + 2)) / 2 = (-1 - angle) / 2 - 1 := by ring
  rw [h3, Int.ceil_sub_one]
  omega

/-- Second loop of `wrapAngle` (src/main.js line 58), in π-coefficient units:
`while (angle > π) angle -= 2π`. -/
def wrapDown (angle : ℚ) : ℚ :=
  if h : 1 < angle then wrapDown (angle - 2) else angle
termination_by (⌈(angle - 1) / 2⌉).toNat
decreasing_by
  have h1 : (0 : ℚ) < (angle - 1) / 2 := by linarith
  have h2 : 1 ≤ ⌈(angle - (1 : ℚ)) / 2⌉ := Int.ceil_pos.mpr h1
  have h3 : ((angle - 2) - (1 : ℚ)) / 2 = (angle - 1) / 2 - 1 := by ring
  rw [h3, Int.ceil_sub_one]
  omega

/-- `wrapAngle` (src/main.js lines 56-60) in π-coefficient units: the first
loop adds 2π while the angle is below -π, the second subtracts 2π while it
is above π. -/
def wrapAngle (angle : ℚ) : ℚ := wrapDown (wrapUp angle)

/-- Square of `distanceCells(ax, ay, bx, by) = Math.hypot(ax-bx, ay-by)`
(src/main.js lines 66-70), for integer cell coordinates. -/
def distanceCellsSq (x1 y1 x2 y2 : ℤ) : ℤ :=
  (x1 - x2) ^ 2 + (y1 - y2) ^ 2

/-- `EVAPORATION = 0.006` (src/main.js line 31). -/
def EVAPORATION : ℚ := 6 / 1000

/-- `DIFFUSION_WEIGHT = 0.0` (src/main.js line 32). -/
def DIFFUSION_WEIGHT : ℚ := 0

/-- `PHEROMONE_DEPOSIT_FOOD = 0.45` (src/main.js line 33). -/
def PHEROMONE_DEPOSIT_FOOD : ℚ := 45 / 100

/-- `PHEROMONE_MAX = 5.0` (src/main.js line 35); the spec's MAX_STRENGTH. -/
def PHEROMONE_MAX : ℚ := 5

/-- `SCENT_THRESHOLD = 0.05` (src/main.js line 36). -/
def SCENT_THRESHOLD : ℚ := 5 / 100

/-- `ANT_TURN_ANGLE = (π/180)*18` (src/main.js line 26), as a coefficient
of π; the spec's MAX_TURN_PER_TICK. -/
def ANT_TURN_ANGLE : ℚ := 18 / 180

/-- `SENSOR_ANGLE = (π/180)*28` (src/main.js line 27), as a coefficient of π. -/
def SENSOR_ANGLE : ℚ := 28 / 180

/-- `FOOD_RADIUS_CELLS = 2` (src/main.js line 38); the spec's
FOOD_MERGE_RADIUS / FOOD_PILE_RADIUS. -/
def FOOD_RADIUS_CELLS : ℤ := 2

/-- `NEST_RADIUS_CELLS = 3` (src/main.js line 39); the spec's NEST_RADIUS. -/
def NEST_RADIUS_CELLS : ℤ := 3

/-- Per-cell result of `World.diffuseAndEvaporate` (src/main.js lines
160-194): 8-neighbour average with edge clamping, blended by
`DIFFUSION_WEIGHT`, evaporated by `(1 - EVAPORATION)` and clamped below at
0.  The source writes each result into the temp buffer and then copies it
back, so every cell reads the pre-advance snapshot; a pure function from
the old field to the new field captures exactly that. -/
def diffuseAndEvaporateField (w h : ℕ) (f : ℕ → ℕ → ℚ) : ℕ → ℕ → ℚ :=
  fun x y =>
    let yTop := if 0 < y then y - 1 else y
    let yBot := if y < h - 1 then y + 1 else y
    let xL := if 0 < x then x - 1 else x
    let xR := if x < w - 1 then x + 1 else x
    let c := f x y
    let n := f x yTop
    let s := f x yBot
    let e := f xR y
    let wv := f xL y
    let ne := f xR yTop
    let nw := f xL yTop
    let se := f xR yBot
    let sw := f xL yBot
    let neighborAvgF := (n + s + e + wv + ne + nw + se + sw) / 8
    let blendedF := c * (1 - DIFFUSION_WEIGHT) + neighborAvgF * DIFFUSION_WEIGHT
    max 0 (blendedF * (1 - EVAPORATION))

/-- The deposit performed at the end of `Ant.step` when carrying food
(src/main.js lines 275-281): the cell is the ant's position floored and
clamped into the grid, and the new value is capped at `PHEROMONE_MAX`. -/
def depositAt (w h : ℕ) (f : ℕ → ℕ → ℚ) (ax ay : ℚ) : ℕ → ℕ → ℚ :=
  let ix := (clamp ⌊ax⌋ 0 ((w : ℤ) - 1)).toNat
  let iy := (clamp ⌊ay⌋ 0 ((h : ℤ) - 1)).toNat
  fun x y =>
    if x = ix ∧ y = iy then min PHEROMONE_MAX (f ix iy + PHEROMONE_DEPOSIT_FOOD)
    else f x y

/-- The two operations that ever mutate the scent field: an ant deposit
(from a continuous ant position) and a field advance.  A simulation tick is
a finite sequence of deposits followed by one advance, so any reachable
field is `runFieldOps` of some operation list. -/
inductive FieldOp where
  | deposit (ax ay : ℚ)
  | advance

/-- Apply one field operation. -/
def applyFieldOp (w h : ℕ) (f : ℕ → ℕ → ℚ) : FieldOp → (ℕ → ℕ → ℚ)
  | FieldOp.deposit ax ay => depositAt w h f ax ay
  | FieldOp.advance => diffuseAndEvaporateField w h f

/-- Run a sequence of field operations from the all-zero initial field
(`new Float32Array(...)` / `this.toFood.fill(0)`, src/main.js lines 77, 95). -/
def runFieldOps (w h : ℕ) (ops : List FieldOp) : ℕ → ℕ → ℚ :=
  ops.foldl (applyFieldOp w h) (fun _ _ => 0)

/-- A food pile `{x, y, amount}` (src/main.js line 80). -/
structure FoodPile where
  x : ℤ
  y : ℤ
  amount : ℤ
deriving DecidableEq

/-- `World.addFood` (src/main.js lines 119-126): merge into the first pile
within `FOOD_RADIUS_CELLS + 1` (Euclidean) of the cell, else push a new
pile at the end. -/
def addFood (cellX cellY amount : ℤ) : List FoodPile → List FoodPile
  | [] => [⟨cellX, cellY, amount⟩]
  | f :: rest =>
    if distanceCellsSq f.x f.y cellX cellY ≤ (FOOD_RADIUS_CELLS + 1) ^ 2 then
      ⟨f.x, f.y, f.amount + amount⟩ :: rest
    else
      f :: addFood cellX cellY amount rest

/-- `World.pickUpFoodAt` (src/main.js lines 142-154): the first pile within
`FOOD_RADIUS_CELLS` of the cell with positive amount is decremented (and
removed when its amount reaches 0); returns whether a pickup happened,
together with the updated pile list. -/
def pickUpFoodAt (cellX cellY : ℤ) : List FoodPile → Bool × List FoodPile
  | [] => (false, [])
  | f :: rest =>
    if distanceCellsSq f.x f.y cellX cellY ≤ FOOD_RADIUS_CELLS ^ 2 ∧ 0 < f.amount then
      if f.amount - 1 ≤ 0 then (true, rest)
      else (true, ⟨f.x, f.y, f.amount - 1⟩ :: rest)
    else
      let r := pickUpFoodAt cellX cellY rest
      (r.1, f :: r.2)

/-- `World.deliverFood` (src/main.js lines 156-158). -/
def deliverFood (score : ℤ) : ℤ := score + 1

/-- The food/nest interaction block at the end of `Ant.step` (src/main.js
lines 283-299), as a function of the ant's carrying flag and clamped cell
`(ix, iy)`: a searching ant attempts a pickup (becoming laden exactly on
success); a laden ant within `NEST_RADIUS_CELLS` of the nest delivers,
becoming unladen and incrementing the score via `deliverFood`.  Returns the
new carrying flag, pile list and score.  (On a successful pickup the source
also re-aims the ant's heading at the nest via `atan2`; that heading change
is orthogonal to the pickup/score bookkeeping captured here.) -/
def interact (nestX nestY : ℤ) (hasFood : Bool) (ix iy : ℤ)
    (piles : List FoodPile) (score : ℤ) : Bool × List FoodPile × ℤ :=
  if hasFood = false then
    let r := pickUpFoodAt ix iy piles
    (r.1, r.2, score)
  else
    if distanceCellsSq ix iy nestX nestY ≤ NEST_RADIUS_CELLS ^ 2 then
      (false, piles, deliverFood score)
    else
      (true, piles, score)

/-- The three sensed field averages `{forward, left, right}` returned by
`Ant.senseDirections` (src/main.js lines 302-312). -/
structure Sense where
  forward : ℚ
  left : ℚ
  right : ℚ

/-- The sensing-and-turn-decision portion of `Ant.step` (src/main.js lines
218-260).  `senseResult` is what `senseDirections` would return; per line
224 it is only consulted when not carrying (`preferredField` is null while
carrying, so `sensed` is all zeros then).  `heading` is the ant's current
angle and `homeAngle` the `atan2` bearing toward the nest, both as
π-coefficients; `rand` models `Math.random() ∈ [0,1)`.  Returns the turn. -/
def decideTurn (hasFood : Bool) (senseResult : Sense)
    (heading homeAngle rand : ℚ) : ℚ :=
  let sensed := if hasFood then Sense.mk 0 0 0 else senseResult
  let signalStrength := max sensed.forward (max sensed.left sensed.right)
  if hasFood then
    let delta := wrapAngle (homeAngle - heading)
    let turn := clamp delta (-ANT_TURN_ANGLE) ANT_TURN_ANGLE
    if SCENT_THRESHOLD ≤ signalStrength then
      let t1 :=
        if sensed.right < sensed.left ∧ sensed.forward < sensed.left then
          turn + SENSOR_ANGLE * (1 / 4)
        else turn
      if sensed.left < sensed.right ∧ sensed.forward < sensed.right then
        t1 - SENSOR_ANGLE * (1 / 4)
      else t1
    else turn
  else
    if SCENT_THRESHOLD ≤ signalStrength then
      if sensed.left ≤ sensed.forward ∧ sensed.right ≤ sensed.forward then 0
      else if sensed.right < sensed.left then SENSOR_ANGLE
      else if sensed.left < sensed.right then -SENSOR_ANGLE
      else (rand - 1 / 2) * ANT_TURN_ANGLE
    else
      (rand - 1 / 2) * ANT_TURN_ANGLE

/-- An ant (src/main.js lines 198-209): continuous position, heading
(π-coefficient) and carrying flag.  (The constructor's `wiggle` field is
never read anywhere in the source and is omitted.) -/
structure Ant where
  x : ℚ
  y : ℚ
  angle : ℚ
  hasFood : Bool
deriving DecidableEq

/-- `Ant.spawnAtNest(x, y)` (src/main.js lines 207-209): heading drawn by
`randomBetween(-π, π) = -π + rand·2π`, i.e. coefficient `-1 + ra·2` for a
draw `ra ∈ [0,1)`. -/
def Ant.spawnAtNest (x y ra : ℚ) : Ant :=
  ⟨x, y, -1 + ra * 2, false⟩

/-- `Ant.handleCollisions(world, nx, ny)` (src/main.js lines 332-357):
sequentially reflect the heading for an X border exit (`π - θ`), a Y border
exit (`-θ`) and an obstacle at the clamped candidate cell (`θ + π/2` plus a
random perturbation, wrapped); `pert` models `(Math.random() - 0.5)` in
π-coefficient units.  Returns the ant with its (possibly) updated heading,
and whether any bounce occurred. -/
def handleCollisions (w h : ℕ) (obstacles : ℕ → ℕ → Bool) (a : Ant)
    (nx ny pert : ℚ) : Ant × Bool :=
  let cx : ℤ := ⌊nx⌋
  let cy : ℤ := ⌊ny⌋
  let s1 : ℚ × Bool :=
    if cx < 0 ∨ (w : ℤ) ≤ cx then (1 - a.angle, true) else (a.angle, false)
  let s2 : ℚ × Bool :=
    if cy < 0 ∨ (h : ℤ) ≤ cy then (-s1.1, true) else s1
  let cx2 : ℤ := clamp cx 0 ((w : ℤ) - 1)
  let cy2 : ℤ := clamp cy 0 ((h : ℤ) - 1)
  let s3 : ℚ × Bool :=
    if obstacles cx2.toNat cy2.toNat = true then
      (wrapAngle (s2.1 + 1 / 2 + pert), true)
    else s2
  ({ a with angle := s3.1 }, s3.2)

/-- The movement-resolution portion of `Ant.step` (src/main.js lines
262-273): the candidate `(nx, ny)` is adopted only when `handleCollisions`
reports no bounce; on a bounce only the heading changes. -/
def resolveMove (w h : ℕ) (obstacles : ℕ → ℕ → Bool) (a : Ant)
    (nx ny pert : ℚ) : Ant :=
  let r := handleCollisions w h obstacles a nx ny pert
  if r.2 then r.1 else { r.1 with x := nx, y := ny }

/-- Fold a sequence of per-tick candidate moves (candidate position plus
collision-perturbation draw) through `resolveMove`. -/
def runMoves (w h : ℕ) (obstacles : ℕ → ℕ → Bool) (a : Ant)
    (moves : List (ℚ × ℚ × ℚ)) : Ant :=
  moves.foldl (fun b m => resolveMove w h obstacles b m.1 m.2.1 m.2.2) a

/-- `World.setWall(cellX, cellY, isWall, radiusCells)` (src/main.js lines
128-138): every in-grid cell of the surrounding square within Euclidean
`radiusCells` of the centre gets its flag set, except cells within
`NEST_RADIUS_CELLS` of the nest, which are skipped.  Each visited cell is
written at most once, so the loop is equivalent to this pointwise update. -/
def setWall (w h : ℕ) (nestX nestY cellX cellY : ℤ) (isWall : Bool)
    (radiusCells : ℤ) (obstacles : ℕ → ℕ → Bool) : ℕ → ℕ → Bool :=
  fun x y =>
    if cellY - radiusCells ≤ (y : ℤ) ∧ (y : ℤ) ≤ cellY + radiusCells ∧
       cellX - radiusCells ≤ (x : ℤ) ∧ (x : ℤ) ≤ cellX + radiusCells ∧
       x < w ∧ y < h ∧
       ¬ distanceCellsSq (x : ℤ) (y : ℤ) nestX nestY ≤ NEST_RADIUS_CELLS ^ 2 ∧
       distanceCellsSq (x : ℤ) (y : ℤ) cellX cellY ≤ radiusCells ^ 2
    then isWall
    else obstacles x y

/-- One `setWall` call's parameters. -/
structure WallEdit where
  cellX : ℤ
  cellY : ℤ
  isWall : Bool
  radiusCells : ℤ

/-- Apply a sequence of `setWall` calls. -/
def applyWallEdits (w h : ℕ) (nestX nestY : ℤ) (edits : List WallEdit)
    (obstacles : ℕ → ℕ → Bool) : ℕ → ℕ → Bool :=
  edits.foldl
    (fun ob e => setWall w h nestX nestY e.cellX e.cellY e.isWall e.radiusCells ob)
    obstacles

/-- The `World` state (src/main.js lines 73-92): grid dimensions, the
to-food scent field and its temp buffer, obstacle mask, food piles, ants,
nest cell (`⌊w/2⌋, ⌊h/2⌋` at construction), score and tick counter. -/
structure World where
  gridWidth : ℕ
  gridHeight : ℕ
  toFood : ℕ → ℕ → ℚ
  tempToFood : ℕ → ℕ → ℚ
  obstacles : ℕ → ℕ → Bool
  foodPiles : List FoodPile
  ants : List Ant
  nestX : ℕ
  nestY : ℕ
  score : ℤ
  ticks : ℕ

/-- `World.diffuseAndEvaporate` (src/main.js lines 160-194): compute the
advanced field into the temp buffer and copy it into `toFood`. -/
def World.diffuseAndEvaporate (w : World) : World :=
  let dstF := diffuseAndEvaporateField w.gridWidth w.gridHeight w.toFood
  { w with tempToFood := dstF, toFood := dstF }

/-- `World.reset(antCount)` (src/main.js lines 94-105): clear field,
obstacles, piles, score and ticks, and respawn the ants jittered around the
nest; `spawns` lists the random draws `(jx, jy, ra)` of each
`Ant.spawnAtNest(nest.x + jx - 0.5, nest.y + jy - 0.5)` call. -/
def World.reset (w : World) (spawns : List (ℚ × ℚ × ℚ)) : World :=
  { w with
    toFood := fun _ _ => 0,
    obstacles := fun _ _ => false,
    foodPiles := [],
    ants := spawns.map (fun s =>
      Ant.spawnAtNest ((w.nestX : ℚ) + s.1 - 1 / 2)
        ((w.nestY : ℚ) + s.2.1 - 1 / 2) s.2.2),
    score := 0,
    ticks := 0 }

/-- Cell-coordinate containment (`Math.floor` of the continuous position
lies in `[0, W-1] × [0, H-1]`). -/
def cellInGrid (w h : ℕ) (x y : ℚ) : Prop :=
  0 ≤ ⌊x⌋ ∧ ⌊x⌋ ≤ (w : ℤ) - 1 ∧ 0 ≤ ⌊y⌋ ∧ ⌊y⌋ ≤ (h : ℤ) - 1

instance (w h : ℕ) (x y : ℚ) : Decidable (cellInGrid w h x y) := by
  unfold cellInGrid
  infer_instance

/-- Field-bounds invariant: every in-grid cell lies in `[0, PHEROMONE_MAX]`. -/
def FieldInBounds (w h : ℕ) (f : ℕ → ℕ → ℚ) : Prop :=
  ∀ x y, x < w → y < h → 0 ≤ f x y ∧ f x y ≤ PHEROMONE_MAX

/-- With `DIFFUSION_WEIGHT = 0` the advance of a cell is just its own value
evaporated and clamped below at 0. -/
lemma diffuseAndEvaporateField_eq (w h : ℕ) (f : ℕ → ℕ → ℚ) (x y : ℕ) :
    diffuseAndEvaporateField w h f x y = max 0 (f x y * (1 - EVAPORATION)) := by
  unfold diffuseAndEvaporateField
  simp [DIFFUSION_WEIGHT]

/-- A positive cell stays positive across one advance. -/
lemma advance_pos (w h : ℕ) (f : ℕ → ℕ → ℚ) (x y : ℕ) (hf : 0 < f x y) :
    0 < diffuseAndEvaporateField w h f x y := by
  rw [diffuseAndEvaporateField_eq]
  have h1 : (0 : ℚ) < 1 - EVAPORATION := by norm_num [EVAPORATION]
  exact lt_of_lt_of_le (mul_pos hf h1) (le_max_right 0 _)

/-- Each field operation preserves the field-bounds invariant. -/
lemma applyFieldOp_bounds (w h : ℕ) (g : ℕ → ℕ → ℚ) (op : FieldOp)
    (hg : FieldInBounds w h g) : FieldInBounds w h (applyFieldOp w h g op) := by
  cases op with
  | deposit ax ay =>
    intro x y hx hy
    simp only [applyFieldOp]
    unfold depositAt
    split
    · rename_i hxy
      obtain ⟨hgx, hgy⟩ :=
        hg ((clamp ⌊ax⌋ 0 ((w : ℤ) - 1)).toNat) ((clamp ⌊ay⌋ 0 ((h : ℤ) - 1)).toNat)
          (hxy.1 ▸ hx) (hxy.2 ▸ hy)
      constructor
      · exact le_min (by norm_num [PHEROMONE_MAX])
          (add_nonneg hgx (by norm_num [PHEROMONE_DEPOSIT_FOOD]))
      · exact min_le_left _ _
    · exact hg x y hx hy
  | advance =>
    intro x y hx hy
    simp only [applyFieldOp]
    rw [diffuseAndEvaporateField_eq]
    obtain ⟨h0, h5⟩ := hg x y hx hy
    refine ⟨le_max_left 0 _, max_le (by norm_num [PHEROMONE_MAX]) ?_⟩
    have h1 : (0 : ℚ) ≤ 1 - EVAPORATION := by norm_num [EVAPORATION]
    calc g x y * (1 - EVAPORATION) ≤ g x y * 1 := by
          exact mul_le_mul_of_nonneg_left (by norm_num [EVAPORATION]) h0
      _ = g x y := mul_one _
      _ ≤ PHEROMONE_MAX := h5

/-- C1: for every sequence of field operations (deposits by carrying ants,
field advances — hence for every reachable world state) and every in-grid
cell, the scent-field value lies in `[0, PHEROMONE_MAX]`: the deposit caps
the new value at `PHEROMONE_MAX` and the advance clamps each result below
at 0, so no sequence of ticks, deposits or advances drives any cell
negative or above the maximum. -/
theorem scent_field_bounds (w h : ℕ) (ops : List FieldOp) (x y : ℕ)
    (hx : x < w) (hy : y < h) :
    0 ≤ runFieldOps w h ops x y ∧ runFieldOps w h ops x y ≤ PHEROMONE_MAX := by
  suffices H : ∀ g, FieldInBounds w h g →
      FieldInBounds w h (ops.foldl (applyFieldOp w h) g) by
    exact H (fun _ _ => 0) (fun a b _ _ => by norm_num [PHEROMONE_MAX]) x y hx hy
  induction ops with
  | nil => intro g hg; exact hg
  | cons op rest ih =>
    intro g hg
    simp only [List.foldl_cons]
    exact ih _ (applyFieldOp_bounds w h g op hg)

/-- C1 witness: a concrete deposit followed by an advance keeps cell (0,0)
of a 2×2 grid within bounds. -/
theorem scent_field_bounds_witness :
    0 ≤ runFieldOps 2 2 [FieldOp.deposit 0 0, FieldOp.advance] 0 0 ∧
    runFieldOps 2 2 [FieldOp.deposit 0 0, FieldOp.advance] 0 0 ≤ PHEROMONE_MAX :=
  scent_field_bounds 2 2 [FieldOp.deposit 0 0, FieldOp.advance] 0 0
    (by decide) (by decide)

/-- C4 (amended): absent deposits, one advance strictly decreases every
positive cell value and keeps zero cells at zero, and a positive cell value
remains strictly positive after every finite number of advances — it decays
monotonically toward 0 but never becomes exactly 0. -/
theorem decay_strict_monotone (w h : ℕ) (f : ℕ → ℕ → ℚ) (x y : ℕ) :
    (0 < f x y → diffuseAndEvaporateField w h f x y < f x y) ∧
    (f x y = 0 → diffuseAndEvaporateField w h f x y = 0) ∧
    (0 < f x y → ∀ n : ℕ, 0 < ((diffuseAndEvaporateField w h)^[n] f) x y) := by
  refine ⟨?_, ?_, ?_⟩
  · intro hf
    rw [diffuseAndEvaporateField_eq]
    have hlt : f x y * (1 - EVAPORATION) < f x y := by
      have : (0 : ℚ) < f x y * EVAPORATION :=
        mul_pos hf (by norm_num [EVAPORATION])
      nlinarith
    exact max_lt hf hlt
  · intro hf
    rw [diffuseAndEvaporateField_eq, hf]
    norm_num
  · intro hf n
    induction n with
    | zero => exact hf
    | succ k ih =>
      rw [Function.iterate_succ_apply']
      exact advance_pos w h _ x y ih

/-- C4 witness: starting from the constant-1 field on a 2×2 grid, the value
at (0,0) is positive and strictly decreases across one advance. -/
theorem decay_strict_monotone_witness :
    (0 : ℚ) < 1 ∧ diffuseAndEvaporateField 2 2 (fun _ _ => 1) 0 0 < 1 :=
  ⟨by norm_num, (decay_strict_monotone 2 2 (fun _ _ => 1) 0 0).1 (by norm_num)⟩

/-- C4 counterexample: the claim "each positive value eventually reaches 0"
is false — starting from the constant-1 field on a 2×2 grid, cell (0,0) is
nonzero after every finite number of advances (exact arithmetic decays
geometrically and never reaches 0; the source's float arithmetic likewise
stalls at the smallest subnormal rather than reaching 0). -/
theorem decay_never_reaches_zero :
    ¬ ∃ n : ℕ, ((diffuseAndEvaporateField 2 2)^[n] (fun _ _ => (1 : ℚ))) 0 0 = 0 := by
  rintro ⟨n, hn⟩
  have pos : ∀ m : ℕ,
      0 < ((diffuseAndEvaporateField 2 2)^[m] (fun _ _ => (1 : ℚ))) 0 0 := by
    intro m
    induction m with
    | zero => norm_num
    | succ k ih =>
      rw [Function.iterate_succ_apply']
      exact advance_pos 2 2 _ 0 0 ih
  exact absurd hn (ne_of_gt (pos n))

/-- C2: the agent is always in exactly one of the two states SEARCHING
(`hasFood = false`) and RETURNING (`hasFood = true`); the interaction phase
of `Ant.step` switches SEARCHING→RETURNING exactly when `pickUpFoodAt`
succeeds at the agent's cell (leaving the score unchanged), and switches
RETURNING→SEARCHING exactly when the cell is within `NEST_RADIUS_CELLS` of
the nest, incrementing the score by exactly 1; the score never decreases
across an interaction, and only an explicit `World.reset` sets it back
(to 0). -/
theorem state_machine_transitions (nestX nestY : ℤ) (hasFood : Bool)
    (ix iy : ℤ) (piles : List FoodPile) (score : ℤ) :
    ((interact nestX nestY hasFood ix iy piles score).1 = true ∨
     (interact nestX nestY hasFood ix iy piles score).1 = false) ∧
    (hasFood = false →
      ((interact nestX nestY hasFood ix iy piles score).1 = true ↔
        (pickUpFoodAt ix iy piles).1 = true) ∧
      (interact nestX nestY hasFood ix iy piles score).2.1 =
        (pickUpFoodAt ix iy piles).2 ∧
      (interact nestX nestY hasFood ix iy piles score).2.2 = score) ∧
    (hasFood = true →
      ((interact nestX nestY hasFood ix iy piles score).1 = false ↔
        distanceCellsSq ix iy nestX nestY ≤ NEST_RADIUS_CELLS ^ 2) ∧
      (distanceCellsSq ix iy nestX nestY ≤ NEST_RADIUS_CELLS ^ 2 →
        (interact nestX nestY hasFood ix iy piles score).2.2 = score + 1) ∧
      (¬ distanceCellsSq ix iy nestX nestY ≤ NEST_RADIUS_CELLS ^ 2 →
        (interact nestX nestY hasFood ix iy piles score).2.2 = score)) ∧
    score ≤ (interact nestX nestY hasFood ix iy piles score).2.2 ∧
    (∀ (w : World) (spawns : List (ℚ × ℚ × ℚ)), (w.reset spawns).score = 0) := by
  cases hasFood with
  | false =>
    refine ⟨Bool.eq_false_or_eq_true
      ((interact nestX nestY false ix iy piles score).1), ?_, ?_, ?_, ?_⟩
    · intro _
      simp [interact]
    · intro hcontra
      exact absurd hcontra (by simp)
    · simp [interact]
    · intro w spawns
      rfl
  | true =>
    refine ⟨Bool.eq_false_or_eq_true
      ((interact nestX nestY true ix iy piles score).1), ?_, ?_, ?_, ?_⟩
    · intro hcontra
      exact absurd hcontra (by simp)
    · intro _
      by_cases hd : distanceCellsSq ix iy nestX nestY ≤ NEST_RADIUS_CELLS ^ 2
      · simp [interact, hd, deliverFood]
      · simp [interact, hd]
    · by_cases hd : distanceCellsSq ix iy nestX nestY ≤ NEST_RADIUS_CELLS ^ 2
      · simp [interact, hd, deliverFood]
      · simp [interact, hd]
    · intro w spawns
      rfl

/-- C2 witness: a returning ant at cell (2,2) with the nest at (0,0)
(squared distance 8 ≤ 9) delivers: it flips to SEARCHING and the score goes
from 7 to 8. -/
theorem state_machine_transitions_witness :
    (interact 0 0 true 2 2 [] 7).1 = false ∧ (interact 0 0 true 2 2 [] 7).2.2 = 7 + 1 :=
  ⟨((state_machine_transitions 0 0 true 2 2 [] 7).2.2.1 rfl).1.mpr (by decide),
   ((state_machine_transitions 0 0 true 2 2 [] 7).2.2.1 rfl).2.1 (by decide)⟩

/-- C5: on an initially empty food store, `addFood(cellA, 3)` followed by
`addFood(cellB, 2)` with `distance(cellA, cellB) ≤ FOOD_RADIUS_CELLS + 1`
(the code's merge threshold; the spec's FOOD_MERGE_RADIUS is
`FOOD_RADIUS_CELLS`) yields exactly one pile, located at cellA, with
amount 5 — for every such pair of cells. -/
theorem addFood_merges_to_single_pile (ax ay bx bY : ℤ)
    (hd : distanceCellsSq ax ay bx bY ≤ (FOOD_RADIUS_CELLS + 1) ^ 2) :
    addFood bx bY 2 (addFood ax ay 3 []) = [⟨ax, ay, 5⟩] := by
  show addFood bx bY 2 [⟨ax, ay, 3⟩] = [⟨ax, ay, 5⟩]
  unfold addFood
  rw [if_pos hd]
  norm_num

/-- C5 witness: cells (0,0) and (3,0) are at squared distance 9 = 3², so
the two adds merge into the single pile ⟨0, 0, 5⟩. -/
theorem addFood_merges_to_single_pile_witness :
    addFood 3 0 2 (addFood 0 0 3 []) = [⟨0, 0, 5⟩] :=
  addFood_merges_to_single_pile 0 0 3 0 (by decide)

/-- The SEARCHING branch of `decideTurn`, with the nested conditionals
exposed. -/
lemma decideTurn_false_eq (s : Sense) (heading homeAngle rand : ℚ) :
    decideTurn false s heading homeAngle rand =
      if SCENT_THRESHOLD ≤ max s.forward (max s.left s.right) then
        if s.left ≤ s.forward ∧ s.right ≤ s.forward then 0
        else if s.right < s.left then SENSOR_ANGLE
        else if s.left < s.right then -SENSOR_ANGLE
        else (rand - 1 / 2) * ANT_TURN_ANGLE
      else (rand - 1 / 2) * ANT_TURN_ANGLE := by
  simp [decideTurn]

/-- C3: a SEARCHING agent's per-tick turn: if the strongest of the three
sensed values is below `SCENT_THRESHOLD`, the turn is the uniform draw
mapped onto `±ANT_TURN_ANGLE/2` (the spec's ±MAX_TURN_PER_TICK/2);
otherwise, forward being a tied-or-greater maximum gives turn 0, left
strictly exceeding right gives `+SENSOR_ANGLE`, right strictly exceeding
left gives `-SENSOR_ANGLE`, and the remaining case (left = right, both
exceeding forward) gives a random turn within `±ANT_TURN_ANGLE`.  (Angles
are π-coefficients; `rand` is the `Math.random()` draw.) -/
theorem searching_turn_decision (s : Sense) (heading homeAngle rand : ℚ)
    (h0 : 0 ≤ rand) (h1 : rand < 1) :
    (max s.forward (max s.left s.right) < SCENT_THRESHOLD →
      decideTurn false s heading homeAngle rand = (rand - 1 / 2) * ANT_TURN_ANGLE ∧
      |decideTurn false s heading homeAngle rand| ≤ ANT_TURN_ANGLE / 2) ∧
    (SCENT_THRESHOLD ≤ max s.forward (max s.left s.right) →
      ((s.left ≤ s.forward ∧ s.right ≤ s.forward) →
        decideTurn false s heading homeAngle rand = 0) ∧
      (¬ (s.left ≤ s.forward ∧ s.right ≤ s.forward) → s.right < s.left →
        decideTurn false s heading homeAngle rand = SENSOR_ANGLE) ∧
      (¬ (s.left ≤ s.forward ∧ s.right ≤ s.forward) → s.left < s.right →
        decideTurn false s heading homeAngle rand = -SENSOR_ANGLE) ∧
      (¬ (s.left ≤ s.forward ∧ s.right ≤ s.forward) → s.left = s.right →
        decideTurn false s heading homeAngle rand = (rand - 1 / 2) * ANT_TURN_ANGLE ∧
        |decideTurn false s heading homeAngle rand| ≤ ANT_TURN_ANGLE)) := by
  have habs : |rand - 1 / 2| ≤ 1 / 2 := abs_le.mpr ⟨by linarith, by linarith⟩
  have hrange : |(rand - 1 / 2) * ANT_TURN_ANGLE| ≤ ANT_TURN_ANGLE / 2 := by
    rw [abs_mul, abs_of_nonneg (by norm_num [ANT_TURN_ANGLE] : (0:ℚ) ≤ ANT_TURN_ANGLE)]
    calc |rand - 1 / 2| * ANT_TURN_ANGLE ≤ (1 / 2) * ANT_TURN_ANGLE :=
          mul_le_mul_of_nonneg_right habs (by norm_num [ANT_TURN_ANGLE])
      _ = ANT_TURN_ANGLE / 2 := by ring
  constructor
  · intro hlow
    have hnot : ¬ SCENT_THRESHOLD ≤ max s.forward (max s.left s.right) :=
      not_le.mpr hlow
    have he : decideTurn false s heading homeAngle rand =
        (rand - 1 / 2) * ANT_TURN_ANGLE := by
      rw [decideTurn_false_eq, if_neg hnot]
    exact ⟨he, he ▸ hrange⟩
  · intro hhigh
    refine ⟨?_, ?_, ?_, ?_⟩
    · intro hfwd
      rw [decideTurn_false_eq, if_pos hhigh, if_pos hfwd]
    · intro hnf hlr
      rw [decideTurn_false_eq, if_pos hhigh, if_neg hnf, if_pos hlr]
    · intro hnf hrl
      have hnl : ¬ s.right < s.left := lt_asymm hrl
      rw [decideTurn_false_eq, if_pos hhigh, if_neg hnf, if_neg hnl, if_pos hrl]
    · intro hnf heq
      have hnl : ¬ s.right < s.left := by rw [heq]; exact lt_irrefl _
      have hnr : ¬ s.left < s.right := by rw [heq]; exact lt_irrefl _
      have he : decideTurn false s heading homeAngle rand =
          (rand - 1 / 2) * ANT_TURN_ANGLE := by
        rw [decideTurn_false_eq, if_pos hhigh, if_neg hnf, if_neg hnl, if_neg hnr]
      refine ⟨he, he ▸ ?_⟩
      calc |(rand - 1 / 2) * ANT_TURN_ANGLE| ≤ ANT_TURN_ANGLE / 2 := hrange
        _ ≤ ANT_TURN_ANGLE := by norm_num [ANT_TURN_ANGLE]

/-- C3 witness: with no scent sensed and draw 0, the searching turn is the
undirected wander `(0 - 1/2) * ANT_TURN_ANGLE` within ±ANT_TURN_ANGLE/2. -/
theorem searching_turn_decision_witness :
    decideTurn false ⟨0, 0, 0⟩ 0 0 0 = (0 - 1 / 2) * ANT_TURN_ANGLE ∧
    |decideTurn false ⟨0, 0, 0⟩ 0 0 0| ≤ ANT_TURN_ANGLE / 2 :=
  (searching_turn_decision ⟨0, 0, 0⟩ 0 0 0 (by norm_num) (by norm_num)).1
    (by norm_num [SCENT_THRESHOLD])

/-- C9: a RETURNING agent's per-tick turn is exactly the wrapped signed
angular difference between the current heading and the bearing toward the
nest, clamped to `±ANT_TURN_ANGLE` (the spec's ±MAX_TURN_PER_TICK) — for
every sensed value, because sensing is skipped while carrying (the sensed
triple is zeroed, its maximum 0 is below `SCENT_THRESHOLD`, and the
left/right scent-bias branch is therefore never taken). -/
theorem returning_turn_decision (s : Sense) (heading homeAngle rand : ℚ) :
    decideTurn true s heading homeAngle rand =
      clamp (wrapAngle (homeAngle - heading)) (-ANT_TURN_ANGLE) ANT_TURN_ANGLE := by
  have hnot : ¬ SCENT_THRESHOLD ≤
      max (Sense.mk 0 0 0).forward (max (Sense.mk 0 0 0).left (Sense.mk 0 0 0).right) := by
    norm_num [SCENT_THRESHOLD]
  simp [decideTurn, hnot]

/-- C6: during movement resolution, a bounce is reported exactly when the
candidate cell is outside the grid on X, outside on Y, or (after clamping)
an obstacle; on any bounce the position is not updated this tick — only the
heading changes (X exit: `π - θ`; Y exit: `-θ`; obstacle: `θ + π/2` plus
the random perturbation, wrapped; all as π-coefficients) — and with no
bounce the position becomes the candidate and the heading is untouched. -/
theorem collision_blocks_position_update (w h : ℕ) (obstacles : ℕ → ℕ → Bool)
    (a : Ant) (nx ny pert : ℚ) :
    ((handleCollisions w h obstacles a nx ny pert).2 = true ↔
      ((⌊nx⌋ < 0 ∨ (w : ℤ) ≤ ⌊nx⌋) ∨ (⌊ny⌋ < 0 ∨ (h : ℤ) ≤ ⌊ny⌋) ∨
        obstacles (clamp ⌊nx⌋ 0 ((w : ℤ) - 1)).toNat
          (clamp ⌊ny⌋ 0 ((h : ℤ) - 1)).toNat = true)) ∧
    ((handleCollisions w h obstacles a nx ny pert).2 = true →
      (resolveMove w h obstacles a nx ny pert).x = a.x ∧
      (resolveMove w h obstacles a nx ny pert).y = a.y) ∧
    ((handleCollisions w h obstacles a nx ny pert).2 = false →
      (resolveMove w h obstacles a nx ny pert).x = nx ∧
      (resolveMove w h obstacles a nx ny pert).y = ny ∧
      (resolveMove w h obstacles a nx ny pert).angle = a.angle) ∧
    ((⌊nx⌋ < 0 ∨ (w : ℤ) ≤ ⌊nx⌋) → ¬ (⌊ny⌋ < 0 ∨ (h : ℤ) ≤ ⌊ny⌋) →
      ¬ obstacles (clamp ⌊nx⌋ 0 ((w : ℤ) - 1)).toNat
          (clamp ⌊ny⌋ 0 ((h : ℤ) - 1)).toNat = true →
      (resolveMove w h obstacles a nx ny pert).angle = 1 - a.angle) ∧
    (¬ (⌊nx⌋ < 0 ∨ (w : ℤ) ≤ ⌊nx⌋) → (⌊ny⌋ < 0 ∨ (h : ℤ) ≤ ⌊ny⌋) →
      ¬ obstacles (clamp ⌊nx⌋ 0 ((w : ℤ) - 1)).toNat
          (clamp ⌊ny⌋ 0 ((h : ℤ) - 1)).toNat = true →
      (resolveMove w h obstacles a nx ny pert).angle = -a.angle) ∧
    (¬ (⌊nx⌋ < 0 ∨ (w : ℤ) ≤ ⌊nx⌋) → ¬ (⌊ny⌋ < 0 ∨ (h : ℤ) ≤ ⌊ny⌋) →
      obstacles (clamp ⌊nx⌋ 0 ((w : ℤ) - 1)).toNat
          (clamp ⌊ny⌋ 0 ((h : ℤ) - 1)).toNat = true →
      (resolveMove w h obstacles a nx ny pert).angle =
        wrapAngle (a.angle + 1 / 2 + pert)) ∧
    (resolveMove w h obstacles a nx ny pert).hasFood = a.hasFood := by
  by_cases hP : ⌊nx⌋ < 0 ∨ (w : ℤ) ≤ ⌊nx⌋ <;>
    by_cases hQ : ⌊ny⌋ < 0 ∨ (h : ℤ) ≤ ⌊ny⌋ <;>
      by_cases hR : obstacles (clamp ⌊nx⌋ 0 ((w : ℤ) - 1)).toNat
          (clamp ⌊ny⌋ 0 ((h : ℤ) - 1)).toNat = true <;>
        simp [handleCollisions, resolveMove, hP, hQ, hR]

/-- C6 witness: on a 4×4 obstacle-free grid, an ant at (1,1) with heading 0
whose candidate (-1, 1) exits the grid on X keeps its position and reflects
its heading to `π - 0` (coefficient 1). -/
theorem collision_blocks_position_update_witness :
    (resolveMove 4 4 (fun _ _ => false) ⟨1, 1, 0, false⟩ (-1) 1 0).x = 1 ∧
    (resolveMove 4 4 (fun _ _ => false) ⟨1, 1, 0, false⟩ (-1) 1 0).angle = 1 - 0 :=
  ⟨((collision_blocks_position_update 4 4 (fun _ _ => false) ⟨1, 1, 0, false⟩
      (-1) 1 0).2.1 (by decide)).1,
   (collision_blocks_position_update 4 4 (fun _ _ => false) ⟨1, 1, 0, false⟩
      (-1) 1 0).2.2.2.1 (by decide) (by decide) (by decide)⟩

/-- After `resolveMove`, either the position is unchanged (a bounce), or
the candidate cell was inside the grid on both axes and the position became
the candidate. -/
lemma resolveMove_cases (w h : ℕ) (obstacles : ℕ → ℕ → Bool)
    (a : Ant) (nx ny pert : ℚ) :
    ((resolveMove w h obstacles a nx ny pert).x = a.x ∧
     (resolveMove w h obstacles a nx ny pert).y = a.y) ∨
    (¬ (⌊nx⌋ < 0 ∨ (w : ℤ) ≤ ⌊nx⌋) ∧ ¬ (⌊ny⌋ < 0 ∨ (h : ℤ) ≤ ⌊ny⌋) ∧
     (resolveMove w h obstacles a nx ny pert).x = nx ∧
     (resolveMove w h obstacles a nx ny pert).y = ny) := by
  by_cases hP : ⌊nx⌋ < 0 ∨ (w : ℤ) ≤ ⌊nx⌋ <;>
    by_cases hQ : ⌊ny⌋ < 0 ∨ (h : ℤ) ≤ ⌊ny⌋ <;>
      by_cases hR : obstacles (clamp ⌊nx⌋ 0 ((w : ℤ) - 1)).toNat
          (clamp ⌊ny⌋ 0 ((h : ℤ) - 1)).toNat = true <;>
        first
          | (left
             constructor <;> simp [resolveMove, handleCollisions, hP, hQ, hR] <;>
               done)
          | (right
             refine ⟨hP, hQ, ?_, ?_⟩ <;>
               simp [resolveMove, handleCollisions, hP, hQ, hR])

/-- `resolveMove` never moves an in-grid agent's cell out of the grid: a
bounce leaves the position unchanged, and a non-bounce certifies that the
candidate cell was inside on both axes. -/
lemma resolveMove_preserves_cellInGrid (w h : ℕ) (obstacles : ℕ → ℕ → Bool)
    (a : Ant) (nx ny pert : ℚ) (ha : cellInGrid w h a.x a.y) :
    cellInGrid w h (resolveMove w h obstacles a nx ny pert).x
      (resolveMove w h obstacles a nx ny pert).y := by
  rcases resolveMove_cases w h obstacles a nx ny pert with
    ⟨hx, hy⟩ | ⟨hnx, hny, hx, hy⟩
  · rw [hx, hy]
    exact ha
  · push_neg at hnx hny
    unfold cellInGrid
    rw [hx, hy]
    omega

/-- `cellInGrid` is preserved along any sequence of resolved moves. -/
lemma runMoves_preserves_cellInGrid (w h : ℕ) (obstacles : ℕ → ℕ → Bool)
    (moves : List (ℚ × ℚ × ℚ)) :
    ∀ a : Ant, cellInGrid w h a.x a.y →
      cellInGrid w h (runMoves w h obstacles a moves).x
        (runMoves w h obstacles a moves).y := by
  induction moves with
  | nil => intro a ha; exact ha
  | cons m rest ih =>
    intro a ha
    simp only [runMoves, List.foldl_cons] at ih ⊢
    exact ih _ (resolveMove_preserves_cellInGrid w h obstacles a m.1 m.2.1 m.2.2 ha)

/-- The floor of a spawn coordinate `nest + j - 1/2` (nest = `⌊dim/2⌋`,
jitter draw `j ∈ [0,1)`) lies in `[0, dim-1]` whenever the dimension is at
least 2. -/
lemma spawn_floor_in_grid (w : ℕ) (hw : 2 ≤ w) (j : ℚ) (h0 : 0 ≤ j) (h1 : j < 1) :
    0 ≤ ⌊((w / 2 : ℕ) : ℚ) + j - 1 / 2⌋ ∧
    ⌊((w / 2 : ℕ) : ℚ) + j - 1 / 2⌋ ≤ (w : ℤ) - 1 := by
  set n := w / 2 with hn
  have hfloor_low : (n : ℤ) - 1 ≤ ⌊(n : ℚ) + j - 1 / 2⌋ := by
    apply Int.le_floor.mpr
    push_cast
    linarith
  have hfloor_high : ⌊(n : ℚ) + j - 1 / 2⌋ < (n : ℤ) + 1 := by
    apply Int.floor_lt.mpr
    push_cast
    linarith
  omega

/-- C7: an agent spawned jittered around the nest (`Ant.spawnAtNest` at
`⌊dim/2⌋ + draw - 0.5` on each axis) keeps its cell coordinates within
`[0, W-1] × [0, H-1]` across every sequence of ticks, for arbitrary
candidate moves and collision perturbations: any candidate whose cell would
leave the grid is rejected with the position unchanged. -/
theorem agent_cell_containment (w h : ℕ) (hw : 2 ≤ w) (hh : 2 ≤ h)
    (obstacles : ℕ → ℕ → Bool) (jx jy ra : ℚ)
    (hjx0 : 0 ≤ jx) (hjx1 : jx < 1) (hjy0 : 0 ≤ jy) (hjy1 : jy < 1)
    (moves : List (ℚ × ℚ × ℚ)) :
    cellInGrid w h
      (runMoves w h obstacles
        (Ant.spawnAtNest (((w / 2 : ℕ) : ℚ) + jx - 1 / 2)
          (((h / 2 : ℕ) : ℚ) + jy - 1 / 2) ra) moves).x
      (runMoves w h obstacles
        (Ant.spawnAtNest (((w / 2 : ℕ) : ℚ) + jx - 1 / 2)
          (((h / 2 : ℕ) : ℚ) + jy - 1 / 2) ra) moves).y := by
  apply runMoves_preserves_cellInGrid
  have hx := spawn_floor_in_grid w hw jx hjx0 hjx1
  have hy := spawn_floor_in_grid h hh jy hjy0 hjy1
  exact ⟨hx.1, hx.2, hy.1, hy.2⟩

/-- C7 witness: on a 2×2 grid with zero jitter draws and no moves, the
spawned agent's cell is inside the grid. -/
theorem agent_cell_containment_witness :
    cellInGrid 2 2
      (runMoves 2 2 (fun _ _ => false)
        (Ant.spawnAtNest (((2 / 2 : ℕ) : ℚ) + 0 - 1 / 2)
          (((2 / 2 : ℕ) : ℚ) + 0 - 1 / 2) 0) []).x
      (runMoves 2 2 (fun _ _ => false)
        (Ant.spawnAtNest (((2 / 2 : ℕ) : ℚ) + 0 - 1 / 2)
          (((2 / 2 : ℕ) : ℚ) + 0 - 1 / 2) 0) []).y :=
  agent_cell_containment 2 2 (by norm_num) (by norm_num) (fun _ _ => false)
    0 0 0 (by norm_num) (by norm_num) (by norm_num) (by norm_num) []

/-- C8: `setWall` never touches a cell within `NEST_RADIUS_CELLS` of the
nest — for every centre, radius and blocked flag, and hence across every
sequence of wall edits such a cell keeps its previous flag; in particular,
starting unblocked it stays unblocked (passable). -/
theorem setWall_spares_nest (w h : ℕ) (nestX nestY : ℤ)
    (obstacles : ℕ → ℕ → Bool) (edits : List WallEdit) (x y : ℕ)
    (hn : distanceCellsSq (x : ℤ) (y : ℤ) nestX nestY ≤ NEST_RADIUS_CELLS ^ 2) :
    applyWallEdits w h nestX nestY edits obstacles x y = obstacles x y ∧
    (obstacles x y = false →
      applyWallEdits w h nestX nestY edits obstacles x y = false) := by
  suffices H : ∀ ob : ℕ → ℕ → Bool,
      applyWallEdits w h nestX nestY edits ob x y = ob x y by
    exact ⟨H obstacles, fun hfalse => (H obstacles).trans hfalse⟩
  induction edits with
  | nil => intro ob; rfl
  | cons e rest ih =>
    intro ob
    show applyWallEdits w h nestX nestY rest
      (setWall w h nestX nestY e.cellX e.cellY e.isWall e.radiusCells ob) x y = ob x y
    rw [ih]
    unfold setWall
    have hnn : ¬ (e.cellY - e.radiusCells ≤ (y : ℤ) ∧ (y : ℤ) ≤ e.cellY + e.radiusCells ∧
        e.cellX - e.radiusCells ≤ (x : ℤ) ∧ (x : ℤ) ≤ e.cellX + e.radiusCells ∧
        x < w ∧ y < h ∧
        ¬ distanceCellsSq (x : ℤ) (y : ℤ) nestX nestY ≤ NEST_RADIUS_CELLS ^ 2 ∧
        distanceCellsSq (x : ℤ) (y : ℤ) e.cellX e.cellY ≤ e.radiusCells ^ 2) := by
      intro hc
      exact hc.2.2.2.2.2.2.1 hn
    rw [if_neg hnn]

/-- C8 witness: with the nest at (5,5) in a 10×10 grid, painting a wall of
radius 3 centred on the nest leaves the nest cell itself unblocked. -/
theorem setWall_spares_nest_witness :
    applyWallEdits 10 10 5 5 [⟨5, 5, true, 3⟩] (fun _ _ => false) 5 5 =
      (fun _ _ => false : ℕ → ℕ → Bool) 5 5 ∧
    ((fun _ _ => false : ℕ → ℕ → Bool) 5 5 = false →
      applyWallEdits 10 10 5 5 [⟨5, 5, true, 3⟩] (fun _ _ => false) 5 5 = false) :=
  setWall_spares_nest 10 10 5 5 (fun _ _ => false) [⟨5, 5, true, 3⟩] 5 5 (by decide)

/-- C10: `World.diffuseAndEvaporate` modifies only the scent field (its
buffers): the grid dimensions, obstacle mask, food pile list, agent list,
nest position, score and tick counter are identical before and after, and
the field becomes exactly the advanced field. -/
theorem diffuseAndEvaporate_frame (w : World) :
    (w.diffuseAndEvaporate).gridWidth = w.gridWidth ∧
    (w.diffuseAndEvaporate).gridHeight = w.gridHeight ∧
    (w.diffuseAndEvaporate).obstacles = w.obstacles ∧
    (w.diffuseAndEvaporate).foodPiles = w.foodPiles ∧
    (w.diffuseAndEvaporate).ants = w.ants ∧
    (w.diffuseAndEvaporate).nestX = w.nestX ∧
    (w.diffuseAndEvaporate).nestY = w.nestY ∧
    (w.diffuseAndEvaporate).score = w.score ∧
    (w.diffuseAndEvaporate).ticks = w.ticks ∧
    (w.diffuseAndEvaporate).toFood =
      diffuseAndEvaporateField w.gridWidth w.gridHeight w.toFood :=
  ⟨rfl, rfl, rfl, rfl, rfl, rfl, rfl, rfl, rfl, rfl⟩
